import Mathlib

/-!
Verification development for the AR-manager aging/reconciliation and
snapshot-aggregation pipeline.

The definitions below are a shallow embedding of the TypeScript source:

* `src/app/api/sync-aspire/route.ts` — the sync route: `calculateAging`,
  `processInvoiceData`, `fetchAllInvoices`, `fetchInvoicesBatch`,
  `enrichInvoicesWithContactEmails`, `writeToSupabase`, `POST`.
* `src/unnamed/part_005` (the `useInvoices` hook) — `getBucketSummaries`,
  `createSnapshot` and the shared region filter.

Modelling conventions:

* JavaScript numbers that hold dollar amounts are modelled as exact
  rationals (`ℚ`); ids and day counts as `Int`/`Nat`.
* Remote services (the Aspire proxy, the contact endpoint, the Supabase
  client) are modelled as explicit oracle parameters / explicit state.
* JavaScript `Date` handling: an instant is an epoch-milliseconds value
  `t : Int`; the wall clock additionally carries a timezone offset
  `tz : Int` in milliseconds east of UTC (so `local time = t + tz`;
  in JS terms `tz = -60000 * getTimezoneOffset()`).
  For an instant `m`, `Date.UTC(getUTCFullYear m, getUTCMonth m, getUTCDate m)`
  is the start of the UTC calendar day containing `m`, i.e.
  `86400000 * (m.fdiv 86400000)`; and
  `Date.UTC(getFullYear, getMonth, getDate)` of a wall clock `(t, tz)` is
  the start of the *local* calendar day re-read as a UTC timestamp, i.e.
  `86400000 * ((t + tz).fdiv 86400000)`.  (Both identities follow from the
  fact that `Date.UTC (y, m, d) = 86400000 * daysFromCivil (y, m, d)` and
  that the civil components of an epoch-ms value `m` are
  `civilFromDays (m.fdiv 86400000)`.)
* `new Date(s)` for a string `s` is modelled by an oracle
  `parseDate : String → Option Int` (`none` = invalid date, i.e. `NaN`).
  In the source an invalid date does not throw: the `NaN` propagates
  through `Date.UTC`/`Math.floor` and all `>` comparisons on `NaN` are
  false, so the produced result coincides with the explicit fallback
  `{daysPastDue: 0, bucket: Current, agingCategory: Not Past Due}`;
  the `none` branch of the embedding returns exactly that record.
-/

namespace ARM

/-- Milliseconds per day (`1000 * 60 * 60 * 24` in the source). -/
def msPerDay : Int := 86400000

/-- The UTC calendar-day number containing epoch-ms `m` (floor division,
matching JS `Math.floor`). -/
def epochDay (m : Int) : Int := m.fdiv msPerDay

/-- `Date.UTC(d.getUTCFullYear(), d.getUTCMonth(), d.getUTCDate())` for an
instant `m`: start of the UTC calendar day containing `m`. -/
def utcDateStart (m : Int) : Int := msPerDay * epochDay m

/-- `Date.UTC(today.getFullYear(), today.getMonth(), today.getDate())` for a
wall clock reading instant `t` in a timezone `tz` (ms east of UTC): start of
the *local* calendar day, re-read as a UTC timestamp.  Note the source uses
the local getters here (route.ts lines 350–351 and 423) even though the
variable is called `todayUTC`. -/
def localDateStart (t tz : Int) : Int := msPerDay * epochDay (t + tz)

/-- JS `x || 0` for a number `x` (0 is falsy; exact rationals have no NaN). -/
def jsOr0 (q : ℚ) : ℚ := if q = 0 then 0 else q

/-- JS `x || d` for an optional string `x` (absent and `""` are falsy). -/
def jsStrOr (x : Option String) (d : String) : String :=
  match x with
  | none => d
  | some s => if s = "" then d else s

/-- JS `s || null` for a string `s`: `null` when empty. -/
def jsStrOrNull (s : String) : Option String :=
  if s = "" then none else some s

/-- `interface AspireInvoice` nested opportunity entries (route.ts 29–32). -/
structure InvoiceOpportunity where
  OpportunityName : Option String
  OpportunityNumber : Option String
deriving DecidableEq

/-- `interface AspireInvoice` (route.ts 12–33). -/
structure AspireInvoice where
  InvoiceID : Int
  InvoiceNumber : String
  CompanyName : String
  PropertyName : Option String
  BranchName : String
  Amount : ℚ
  AmountRemaining : ℚ
  DueDate : String
  InvoiceDate : String
  BillingContactID : Option Int
  BillingContactName : Option String
  BillingContactEmail : Option String
  PrimaryContactID : Option Int
  PrimaryContactName : Option String
  PrimaryContactEmail : Option String
  PaymentTermsName : Option String
  InvoiceOpportunities : Option (List InvoiceOpportunity)
deriving DecidableEq

/-- `interface Contact` (route.ts 35–38). -/
structure Contact where
  ContactID : Int
  Email : Option String
deriving DecidableEq

/-- `interface ProcessedInvoiceData` (route.ts 40–64).  Note: it has no
`payment_status`, `is_ghosting`, `is_terminated` or `comments` fields —
those columns are local-only and are never part of the upsert payload. -/
structure ProcessedInvoiceData where
  invoice_id : Int
  invoice_number : String
  company_name : String
  property_name : String
  opportunity_name : String
  opportunity_number : String
  branch_name : String
  amount : ℚ
  amount_remaining : ℚ
  due_date : Option String
  invoice_date : Option String
  past_due : Int
  aging_category : String
  aging_1_30 : ℚ
  aging_31_60 : ℚ
  aging_61_90 : ℚ
  aging_91_120 : ℚ
  aging_121_plus : ℚ
  primary_contact_name : String
  primary_contact_email : String
  billing_contact_name : String
  billing_contact_email : String
  payment_terms_name : String
deriving DecidableEq

/-- Result record of `calculateAging` (route.ts 414–457). -/
structure AgingResult where
  daysPastDue : Int
  bucket : String
  agingCategory : String
deriving DecidableEq

/-- `calculateAging` (route.ts 414–457).  `parseDate` models `new Date(s)`
(`none` = invalid); `now`/`tz` model the `new Date()` wall clock.  The
`bucket`/`agingCategory` pair follows the single `if`-chain of the source. -/
def calculateAging (parseDate : String → Option Int) (now tz : Int)
    (dueDateString : String) : AgingResult :=
  if dueDateString = "" then
    ⟨0, "Current", "Not Past Due"⟩
  else
    match parseDate dueDateString with
    | none => ⟨0, "Current", "Not Past Due"⟩
    | some dueMs =>
      let todayUTC := localDateStart now tz
      let dueDateUTC := utcDateStart dueMs
      let daysPastDue := (todayUTC - dueDateUTC).fdiv msPerDay
      let bc : String × String :=
        if daysPastDue > 120 then ("121+", "Aging 121+")
        else if daysPastDue > 90 then ("91-120", "Aging 91-120")
        else if daysPastDue > 60 then ("61-90", "Aging 61-90")
        else if daysPastDue > 30 then ("31-60", "Aging 31-60")
        else if daysPastDue > 0 then ("1-30", "Aging 1-30")
        else ("Current", "Not Past Due")
      ⟨if daysPastDue > 0 then daysPastDue else 0, bc.1, bc.2⟩

/-- The body of the `invoices.map` in `processInvoiceData` (route.ts
353–411), extracted as a named function of one invoice. -/
def processInvoice (parseDate : String → Option Int) (now tz : Int)
    (invoice : AspireInvoice) : ProcessedInvoiceData :=
  let opps := invoice.InvoiceOpportunities.getD []
  let oppNames := opps.filterMap
    (fun o => o.OpportunityName.bind (fun n => if n = "" then none else some n))
  let oppNumbers := opps.filterMap
    (fun o => o.OpportunityNumber.bind (fun n => if n = "" then none else some n))
  let opportunityName := String.intercalate "; " oppNames
  let opportunityNumber := String.intercalate "; " oppNumbers
  let aging := calculateAging parseDate now tz invoice.DueDate
  let pastDue : Int :=
    if invoice.DueDate = "" then 0
    else
      match parseDate invoice.DueDate with
      | none => 0
      | some dueMs =>
        let daysDiff := (localDateStart now tz - utcDateStart dueMs).fdiv msPerDay
        if daysDiff > 0 then daysDiff else 0
  { invoice_id := invoice.InvoiceID
    invoice_number := invoice.InvoiceNumber
    company_name := invoice.CompanyName
    property_name := jsStrOr invoice.PropertyName ""
    opportunity_name := opportunityName
    opportunity_number := opportunityNumber
    branch_name := invoice.BranchName
    amount := jsOr0 invoice.Amount
    amount_remaining := jsOr0 invoice.AmountRemaining
    due_date := jsStrOrNull invoice.DueDate
    invoice_date := jsStrOrNull invoice.InvoiceDate
    past_due := pastDue
    aging_category := aging.agingCategory
    aging_1_30 := if aging.bucket = "1-30" then jsOr0 invoice.AmountRemaining else 0
    aging_31_60 := if aging.bucket = "31-60" then jsOr0 invoice.AmountRemaining else 0
    aging_61_90 := if aging.bucket = "61-90" then jsOr0 invoice.AmountRemaining else 0
    aging_91_120 := if aging.bucket = "91-120" then jsOr0 invoice.AmountRemaining else 0
    aging_121_plus := if aging.bucket = "121+" then jsOr0 invoice.AmountRemaining else 0
    primary_contact_name := jsStrOr invoice.PrimaryContactName ""
    primary_contact_email := jsStrOr invoice.PrimaryContactEmail ""
    billing_contact_name := jsStrOr invoice.BillingContactName ""
    billing_contact_email := jsStrOr invoice.BillingContactEmail ""
    payment_terms_name := jsStrOr invoice.PaymentTermsName "" }

/-- `processInvoiceData` (route.ts 349–412).  The source reads `new Date()`
once at the top and again inside each `calculateAging` call; both reads of
the wall clock are modelled by the same `(now, tz)`. -/
def processInvoiceData (parseDate : String → Option Int) (now tz : Int)
    (invoices : List AspireInvoice) : List ProcessedInvoiceData :=
  invoices.map (processInvoice parseDate now tz)

/-- `PAGE_SIZE` (route.ts 7). -/
def PAGE_SIZE : Nat := 1000

/-- `maxPages` (route.ts 152). -/
def maxPages : Nat := 100

/-- `fetchInvoicesBatch` (route.ts 199–224): the network round-trip is an
oracle response `resp`; a non-ok status or a thrown error is `Except.error`
and is caught, returning `[]`.  The `Array.isArray(...) ? ... : (... .value
|| [])` unwrapping is part of producing the oracle's `ok` payload. -/
def fetchInvoicesBatch (resp : Except String (List AspireInvoice)) :
    List AspireInvoice :=
  match resp with
  | .ok invoices => invoices
  | .error _ => []

/-- The cursor actually encoded in the request filter (route.ts 160–162):
`lastMaxId` is included only when positive, so every non-positive cursor
issues the same base filter and is keyed as `0`. -/
def filterFor (lastMaxId : Int) : Int :=
  if 0 < lastMaxId then lastMaxId else 0

/-- `Math.max(...invoices.map(inv => inv.InvoiceID))` on a batch; only ever
used on non-empty batches (route.ts 167–168).  On `[]` we return `0`
(JS would give `-Infinity`; the source never reaches that case). -/
def maxIdOf (invoices : List AspireInvoice) : Int :=
  match invoices.map (fun inv => inv.InvoiceID) with
  | [] => 0
  | a :: as => as.foldl max a

/-- The `while (hasMoreData && page <= maxPages)` loop of `fetchAllInvoices`
(route.ts 157–189), with `fuel` = number of page slots left (the loop runs
for `page = 1..maxPages` at most).  `pages : Int → List AspireInvoice` maps
the request cursor (see `filterFor`) to the already-unwrapped batch result.
Returns the accumulated invoices and the number of pages fetched. -/
def fetchLoop (pages : Int → List AspireInvoice) (lastMaxId : Int) :
    Nat → List AspireInvoice × Nat
  | 0 => ([], 0)
  | fuel + 1 =>
    let invoices := pages (filterFor lastMaxId)
    if invoices.length = 0 then ([], 1)
    else if invoices.length < PAGE_SIZE then (invoices, 1)
    else
      let rest := fetchLoop pages (maxIdOf invoices) fuel
      (invoices ++ rest.1, rest.2 + 1)

/-- `fetchAllInvoices` (route.ts 147–197): start at cursor 0 with at most
`maxPages` pages.  Reaching the ceiling only logs a warning and returns the
partial result. -/
def fetchAllInvoices (pages : Int → List AspireInvoice) :
    List AspireInvoice × Nat :=
  fetchLoop pages 0 maxPages

/-- The per-invoice enrichment step of `enrichInvoicesWithContactEmails`
(route.ts 255–267).  `contactMap : Int → Option Contact` is the id → contact
map assembled from the batched contact fetches (route.ts 273–347); a missing
entry leaves the invoice untouched.  `invoice.BillingContactID &&` is JS
truthiness: `some id` with `id ≠ 0`. -/
def enrichInvoice (contactMap : Int → Option Contact)
    (invoice : AspireInvoice) : AspireInvoice :=
  let inv1 :=
    match invoice.BillingContactID with
    | some cid =>
      if cid ≠ 0 then
        match contactMap cid with
        | some c => { invoice with BillingContactEmail := some (jsStrOr c.Email "") }
        | none => invoice
      else invoice
    | none => invoice
  match inv1.PrimaryContactID with
  | some cid =>
    if cid ≠ 0 then
      match contactMap cid with
      | some c => { inv1 with PrimaryContactEmail := some (jsStrOr c.Email "") }
      | none => inv1
    else inv1
  | none => inv1

/-- `enrichInvoicesWithContactEmails` (route.ts 226–271).  The early return
when no invoice carries a contact id is observationally the same as mapping
`enrichInvoice` (every lookup misses), so only the empty-input early return
is kept explicit. -/
def enrichInvoicesWithContactEmails (contactMap : Int → Option Contact)
    (invoices : List AspireInvoice) : List AspireInvoice :=
  if invoices.length = 0 then invoices
  else invoices.map (enrichInvoice contactMap)

/-- A row of the `ar_aging_invoices` table: the nullable primary key
(`invoice_id` is `NULL` on pre-migration rows), the 22 columns written by
the sync upsert, and the four local-only columns that the sync never
writes. -/
structure ArAgingRow where
  invoice_id : Option Int
  invoice_number : String
  company_name : String
  property_name : String
  opportunity_name : String
  opportunity_number : String
  branch_name : String
  amount : ℚ
  amount_remaining : ℚ
  due_date : Option String
  invoice_date : Option String
  past_due : Int
  aging_category : String
  aging_1_30 : ℚ
  aging_31_60 : ℚ
  aging_61_90 : ℚ
  aging_91_120 : ℚ
  aging_121_plus : ℚ
  primary_contact_name : String
  primary_contact_email : String
  billing_contact_name : String
  billing_contact_email : String
  payment_terms_name : String
  payment_status : String
  is_ghosting : Bool
  is_terminated : Bool
  comments : String
deriving DecidableEq

/-- Overwrite exactly the columns present in the upsert payload
(`ProcessedInvoiceData`) on an existing row.  The four local-only columns
(`payment_status`, `is_ghosting`, `is_terminated`, `comments`) are not
fields of `ProcessedInvoiceData`, so a conflicting upsert leaves them as
they were (route.ts 409, 516–521, 530). -/
def setSyncedColumns (r : ArAgingRow) (p : ProcessedInvoiceData) : ArAgingRow :=
  { r with
    invoice_id := some p.invoice_id
    invoice_number := p.invoice_number
    company_name := p.company_name
    property_name := p.property_name
    opportunity_name := p.opportunity_name
    opportunity_number := p.opportunity_number
    branch_name := p.branch_name
    amount := p.amount
    amount_remaining := p.amount_remaining
    due_date := p.due_date
    invoice_date := p.invoice_date
    past_due := p.past_due
    aging_category := p.aging_category
    aging_1_30 := p.aging_1_30
    aging_31_60 := p.aging_31_60
    aging_61_90 := p.aging_61_90
    aging_91_120 := p.aging_91_120
    aging_121_plus := p.aging_121_plus
    primary_contact_name := p.primary_contact_name
    primary_contact_email := p.primary_contact_email
    billing_contact_name := p.billing_contact_name
    billing_contact_email := p.billing_contact_email
    payment_terms_name := p.payment_terms_name }

/-- A freshly inserted row: payload columns from the upsert, local-only
columns at their database defaults (modelled from the spec data model:
payment-status enum defaults to "No Follow Up", flags to false, comments
empty). -/
def insertRowOfPayload (p : ProcessedInvoiceData) : ArAgingRow :=
  { invoice_id := some p.invoice_id
    invoice_number := p.invoice_number
    company_name := p.company_name
    property_name := p.property_name
    opportunity_name := p.opportunity_name
    opportunity_number := p.opportunity_number
    branch_name := p.branch_name
    amount := p.amount
    amount_remaining := p.amount_remaining
    due_date := p.due_date
    invoice_date := p.invoice_date
    past_due := p.past_due
    aging_category := p.aging_category
    aging_1_30 := p.aging_1_30
    aging_31_60 := p.aging_31_60
    aging_61_90 := p.aging_61_90
    aging_91_120 := p.aging_91_120
    aging_121_plus := p.aging_121_plus
    primary_contact_name := p.primary_contact_name
    primary_contact_email := p.primary_contact_email
    billing_contact_name := p.billing_contact_name
    billing_contact_email := p.billing_contact_email
    payment_terms_name := p.payment_terms_name
    payment_status := "No Follow Up"
    is_ghosting := false
    is_terminated := false
    comments := "" }

/-- One `upsert` row with `onConflict: invoice_id` (route.ts 516–521):
update the payload columns of every row whose `invoice_id` matches,
otherwise insert a new row. -/
def applyUpsert (rows : List ArAgingRow) (p : ProcessedInvoiceData) :
    List ArAgingRow :=
  if ∃ r ∈ rows, r.invoice_id = some p.invoice_id then
    rows.map (fun r =>
      if r.invoice_id = some p.invoice_id then setSyncedColumns r p else r)
  else rows ++ [insertRowOfPayload p]

/-- Structural helper for the batch slicing: `fuel` bounds the number of
slices (every call site passes `fuel ≥ l.length`, and each step consumes at
least one element, so the fuel-exhausted case is unreachable). -/
def chunksAux (fuel : Nat) (l : List ProcessedInvoiceData) :
    List (List ProcessedInvoiceData) :=
  match fuel, l with
  | _, [] => []
  | 0, l => [l]
  | fuel + 1, l => l.take 500 :: chunksAux fuel (l.drop 500)

/-- The `for (i = 0; i < data.length; i += batchSize)` slicing with
`batchSize = 500` (route.ts 510–513). -/
def chunksOf500 (l : List ProcessedInvoiceData) :
    List (List ProcessedInvoiceData) :=
  chunksAux l.length l

/-- Migration-mode detection (route.ts 467–473): `.limit(1).single()`
errors when the table is empty (so `isMigration` is false there) and
otherwise samples one row, modelled as the first row; migration mode holds
when that row's `invoice_id` is `NULL`. -/
def isMigrationState (rows : List ArAgingRow) : Bool :=
  match rows.head? with
  | some r => r.invoice_id.isNone
  | none => false

/-- `invoicesToDelete` / `idsToDelete` (route.ts 489–495): rows whose
`invoice_id` is truthy (non-`NULL` and non-zero) and absent from the fresh
batch's id set. -/
def idsToDeleteOf (rows : List ArAgingRow) (aspireInvoiceIds : List Int) :
    List Int :=
  rows.filterMap (fun r =>
    match r.invoice_id with
    | some i => if i ≠ 0 ∧ i ∉ aspireInvoiceIds then some i else none
    | none => none)

/-- A write issued against the store by the sync. -/
inductive WriteOp where
  | del (ids : List Int)
  | ups (batch : List ProcessedInvoiceData)
deriving DecidableEq

/-- The conditional delete of paid-off invoices (route.ts 466–507): skipped
entirely in migration mode, and issued only when the computed id list is
non-empty.  Returns the store after the deletes and the delete operations
issued. -/
def deleteStep (rows : List ArAgingRow) (aspireInvoiceIds : List Int) :
    List ArAgingRow × List WriteOp :=
  if isMigrationState rows then (rows, [])
  else
    let idsToDelete := idsToDeleteOf rows aspireInvoiceIds
    if idsToDelete = [] then (rows, [])
    else
      (rows.filter (fun r => ¬ ∃ i ∈ idsToDelete, r.invoice_id = some i),
       [WriteOp.del idsToDelete])

/-- `writeToSupabase` (route.ts 460–531): the conditional delete of
paid-off invoices, followed by the batched upserts.  Returns the resulting
store contents and the ordered list of write operations issued. -/
def writeToSupabase (rows : List ArAgingRow)
    (data : List ProcessedInvoiceData) : List ArAgingRow × List WriteOp :=
  let aspireInvoiceIds := data.map (fun p => p.invoice_id)
  let step1 := deleteStep rows aspireInvoiceIds
  let batches := chunksOf500 data
  let finalRows := batches.foldl (fun s b => b.foldl applyUpsert s) step1.1
  (finalRows, step1.2 ++ batches.map WriteOp.ups)

/-- The ids removed by the delete operations of a write trace. -/
def deletedIdsOfOps (ops : List WriteOp) : List Int :=
  ops.foldr (fun op acc =>
    match op with
    | .del ids => ids ++ acc
    | .ups _ => acc) []

/-- Whether a write operation is a delete. -/
def WriteOp.isDel : WriteOp → Bool
  | .del _ => true
  | .ups _ => false

/-- The response value produced by the sync route handler. -/
inductive SyncResponse where
  | unauthorized (error : String)
  | success (message : String) (count : Nat)
  | serverError (error : String)
deriving DecidableEq

/-- `POST` (route.ts 66–145) after the request/JWT plumbing: `authOk`
summarises the authorization-header and token check (lines 69–98);
`rawPages` is the invoice-endpoint oracle keyed by the request cursor;
`contactMap` the contact-lookup oracle; `(now, tz)` the wall clock;
`rows` the current `ar_aging_invoices` contents.  Returns the HTTP
response together with the resulting store and the write trace. -/
def POST (authOk : Bool) (rawPages : Int → Except String (List AspireInvoice))
    (contactMap : Int → Option Contact) (parseDate : String → Option Int)
    (now tz : Int) (rows : List ArAgingRow) :
    SyncResponse × List ArAgingRow × List WriteOp :=
  if authOk = false then (.unauthorized "Unauthorized - Invalid session", rows, [])
  else
    let invoices := (fetchAllInvoices (fun c => fetchInvoicesBatch (rawPages c))).1
    if invoices.length = 0 then (.success "No invoices found" 0, rows, [])
    else
      let enrichedInvoices := enrichInvoicesWithContactEmails contactMap invoices
      let processedData := processInvoiceData parseDate now tz enrichedInvoices
      let written := writeToSupabase rows processedData
      (.success ("Successfully synced " ++ toString processedData.length ++ " invoices")
        processedData.length, written.1, written.2)

/-- Bool test for `pat` being an initial segment of `s` (character lists). -/
def isPrefixCharList : List Char → List Char → Bool
  | [], _ => true
  | _ :: _, [] => false
  | a :: as, b :: bs => a == b && isPrefixCharList as bs

/-- Substring occurrence test on character lists (recursion on the
haystack). -/
def containsSub (pat : List Char) : List Char → Bool
  | [] => isPrefixCharList pat []
  | c :: t => isPrefixCharList pat (c :: t) || containsSub pat t

/-- JS `s.includes(pat)` for strings. -/
def jsIncludes (s pat : String) : Bool := containsSub pat.data s.data

/-- JS `s.toLowerCase()` (ASCII case mapping, which agrees with JS on the
branch names in scope). -/
def jsToLowerCase (s : String) : String := ⟨s.data.map Char.toLower⟩

/-- The fields of the hook's `Invoice` record (src/types/index.ts 1–33)
that the aggregation functions read.  Loaded amounts default missing
values to 0 (part_005 lines 248–258), so the fields are plain rationals. -/
structure Invoice where
  invoice_id : Int
  companyName : String
  branchName : String
  amount : ℚ
  amountRemaining : ℚ
  aging_1_30 : ℚ
  aging_31_60 : ℚ
  aging_61_90 : ℚ
  aging_91_120 : ℚ
  aging_121_plus : ℚ
deriving DecidableEq

/-- The region selector `'all' | 'phoenix' | 'las-vegas'`. -/
inductive Region where
  | all
  | phoenix
  | lasVegas
deriving DecidableEq

/-- The fixed Phoenix branch allowlist (part_005 lines 436, 566, 618). -/
def phoenixBranches : List String :=
  ["Phx - North", "Phx - SouthWest", "Phx - SouthEast", "Corporate"]

/-- The region predicate repeated verbatim in `createSnapshot`
(part_005 434–442), `getBucketSummaries` (564–572) and the invoice filter
(616–622): Phoenix is `phoenixBranches.includes(branchName)`, Las Vegas is
`branchName.toLowerCase().includes("vegas") ||
branchName.toLowerCase().includes("las vegas")`, and `all` keeps
everything. -/
def regionMatch (region : Region) (inv : Invoice) : Bool :=
  match region with
  | .phoenix => decide (inv.branchName ∈ phoenixBranches)
  | .lasVegas =>
    jsIncludes (jsToLowerCase inv.branchName) "vegas" ||
      jsIncludes (jsToLowerCase inv.branchName) "las vegas"
  | .all => true

/-- `interface BucketSummary` (src/types/index.ts 73–76). -/
structure BucketSummary where
  count : Nat
  value : ℚ
deriving DecidableEq

/-- The record of per-bucket summaries built by `getBucketSummaries`
(keys `all`, `1-30`, `31-60`, `61-90`, `91-120`, `121+`). -/
structure BucketSummaries where
  all : BucketSummary
  b1_30 : BucketSummary
  b31_60 : BucketSummary
  b61_90 : BucketSummary
  b91_120 : BucketSummary
  b121_plus : BucketSummary
deriving DecidableEq

/-- The all-zero initial summaries record (part_005 555–562). -/
def initSummaries : BucketSummaries :=
  ⟨⟨0, 0⟩, ⟨0, 0⟩, ⟨0, 0⟩, ⟨0, 0⟩, ⟨0, 0⟩, ⟨0, 0⟩⟩

/-- The body of the `regionFilteredInvoices.forEach` in
`getBucketSummaries` (part_005 574–599). -/
def addInvoiceToSummaries (s : BucketSummaries) (inv : Invoice) :
    BucketSummaries :=
  let s := { s with all := ⟨s.all.count + 1, s.all.value + inv.amountRemaining⟩ }
  let s := if inv.aging_1_30 > 0 then
    { s with b1_30 := ⟨s.b1_30.count + 1, s.b1_30.value + inv.aging_1_30⟩ } else s
  let s := if inv.aging_31_60 > 0 then
    { s with b31_60 := ⟨s.b31_60.count + 1, s.b31_60.value + inv.aging_31_60⟩ } else s
  let s := if inv.aging_61_90 > 0 then
    { s with b61_90 := ⟨s.b61_90.count + 1, s.b61_90.value + inv.aging_61_90⟩ } else s
  let s := if inv.aging_91_120 > 0 then
    { s with b91_120 := ⟨s.b91_120.count + 1, s.b91_120.value + inv.aging_91_120⟩ } else s
  if inv.aging_121_plus > 0 then
    { s with b121_plus := ⟨s.b121_plus.count + 1, s.b121_plus.value + inv.aging_121_plus⟩ }
  else s

/-- `getBucketSummaries` (part_005 554–602), with the hook's ambient
`invoices` state and `selectedRegion` passed explicitly. -/
def getBucketSummaries (invoices : List Invoice) (selectedRegion : Region) :
    BucketSummaries :=
  (invoices.filter (regionMatch selectedRegion)).foldl addInvoiceToSummaries
    initSummaries

/-- `interface CompanyBreakdown` (src/types/index.ts 106–115). -/
structure CompanyBreakdown where
  company : String
  total : ℚ
  count : Nat
  aging_1_30 : ℚ
  aging_31_60 : ℚ
  aging_61_90 : ℚ
  aging_91_120 : ℚ
  aging_121_plus : ℚ
deriving DecidableEq

/-- The totals accumulator of `createSnapshot` (part_005 444–457). -/
structure SnapshotTotals where
  total_outstanding : ℚ
  invoice_count : Nat
  aging_1_30 : ℚ
  aging_31_60 : ℚ
  aging_61_90 : ℚ
  aging_91_120 : ℚ
  aging_121_plus : ℚ
  count_1_30 : Nat
  count_31_60 : Nat
  count_61_90 : Nat
  count_91_120 : Nat
  count_121_plus : Nat
deriving DecidableEq

/-- The totals part of the `regionInvoices.forEach` body
(part_005 461–473). -/
def addInvoiceToTotals (t : SnapshotTotals) (inv : Invoice) : SnapshotTotals :=
  { t with
    total_outstanding := t.total_outstanding + inv.amountRemaining
    aging_1_30 := t.aging_1_30 + inv.aging_1_30
    aging_31_60 := t.aging_31_60 + inv.aging_31_60
    aging_61_90 := t.aging_61_90 + inv.aging_61_90
    aging_91_120 := t.aging_91_120 + inv.aging_91_120
    aging_121_plus := t.aging_121_plus + inv.aging_121_plus
    count_1_30 := if inv.aging_1_30 > 0 then t.count_1_30 + 1 else t.count_1_30
    count_31_60 := if inv.aging_31_60 > 0 then t.count_31_60 + 1 else t.count_31_60
    count_61_90 := if inv.aging_61_90 > 0 then t.count_61_90 + 1 else t.count_61_90
    count_91_120 := if inv.aging_91_120 > 0 then t.count_91_120 + 1 else t.count_91_120
    count_121_plus := if inv.aging_121_plus > 0 then t.count_121_plus + 1 else t.count_121_plus }

/-- The fresh company entry used when `companyMap.get` misses
(part_005 475–484). -/
def emptyCompanyEntry (company : String) : CompanyBreakdown :=
  ⟨company, 0, 0, 0, 0, 0, 0, 0⟩

/-- Folding one invoice into a company entry (part_005 486–492). -/
def addInvoiceToCompanyEntry (e : CompanyBreakdown) (inv : Invoice) :
    CompanyBreakdown :=
  { e with
    total := e.total + inv.amountRemaining
    count := e.count + 1
    aging_1_30 := e.aging_1_30 + inv.aging_1_30
    aging_31_60 := e.aging_31_60 + inv.aging_31_60
    aging_61_90 := e.aging_61_90 + inv.aging_61_90
    aging_91_120 := e.aging_91_120 + inv.aging_91_120
    aging_121_plus := e.aging_121_plus + inv.aging_121_plus }

/-- `companyMap.get`/`companyMap.set` (part_005 475–494): a JS `Map`
preserves insertion order, so it is modelled as an association list where
updating an existing key keeps its position and a new key is appended. -/
def upsertCompanyMap (m : List CompanyBreakdown) (inv : Invoice) :
    List CompanyBreakdown :=
  if ∃ e ∈ m, e.company = inv.companyName then
    m.map (fun e =>
      if e.company = inv.companyName then addInvoiceToCompanyEntry e inv else e)
  else m ++ [addInvoiceToCompanyEntry (emptyCompanyEntry inv.companyName) inv]

/-- `Array.from(companyMap.values()).sort((a, b) => b.total - a.total)
.slice(0, 20)` (part_005 497–499): a stable descending sort on `total`
followed by truncation to the top 20. -/
def topCompanyBreakdown (m : List CompanyBreakdown) : List CompanyBreakdown :=
  (m.mergeSort (fun a b => decide (b.total ≤ a.total))).take 20

/-- A row of the `monthly_ar_snapshots` table as written by
`createSnapshot` (part_005 501–522). -/
structure SnapshotRow where
  snapshot_date : String
  region : Region
  total_outstanding : ℚ
  invoice_count : Nat
  aging_1_30 : ℚ
  aging_31_60 : ℚ
  aging_61_90 : ℚ
  aging_91_120 : ℚ
  aging_121_plus : ℚ
  count_1_30 : Nat
  count_31_60 : Nat
  count_61_90 : Nat
  count_91_120 : Nat
  count_121_plus : Nat
  company_breakdown : List CompanyBreakdown
  created_by : String
deriving DecidableEq

/-- The zeroed totals literal (part_005 444–457); `invoice_count` is set to
`regionInvoices.length` up front. -/
def initTotals (regionCount : Nat) : SnapshotTotals :=
  ⟨0, regionCount, 0, 0, 0, 0, 0, 0, 0, 0, 0, 0⟩

/-- The snapshot row built for one region inside `createSnapshot`
(part_005 433–522): region-filter the invoices, fold the totals and the
company map, truncate the breakdown, and assemble the upsert payload. -/
def buildSnapshotRow (invoices : List Invoice) (date user : String)
    (region : Region) : SnapshotRow :=
  let regionInvoices := invoices.filter (regionMatch region)
  let totals := regionInvoices.foldl addInvoiceToTotals
    (initTotals regionInvoices.length)
  let companyBreakdown := topCompanyBreakdown
    (regionInvoices.foldl upsertCompanyMap [])
  { snapshot_date := date
    region := region
    total_outstanding := totals.total_outstanding
    invoice_count := totals.invoice_count
    aging_1_30 := totals.aging_1_30
    aging_31_60 := totals.aging_31_60
    aging_61_90 := totals.aging_61_90
    aging_91_120 := totals.aging_91_120
    aging_121_plus := totals.aging_121_plus
    count_1_30 := totals.count_1_30
    count_31_60 := totals.count_31_60
    count_61_90 := totals.count_61_90
    count_91_120 := totals.count_91_120
    count_121_plus := totals.count_121_plus
    company_breakdown := companyBreakdown
    created_by := user }

/-- The snapshot table upsert with `onConflict: snapshot_date,region`
(part_005 501–522): replace every row with the same (date, region) key,
or insert when the key is absent. -/
def upsertSnapshotRow (table : List SnapshotRow) (row : SnapshotRow) :
    List SnapshotRow :=
  if ∃ r ∈ table, r.snapshot_date = row.snapshot_date ∧ r.region = row.region then
    table.map (fun r =>
      if r.snapshot_date = row.snapshot_date ∧ r.region = row.region then row else r)
  else table ++ [row]

/-- The `regions` array iterated by `createSnapshot` (part_005 431). -/
def snapshotRegions : List Region := [.all, .phoenix, .lasVegas]

/-- `createSnapshot` (part_005 427–540) for an explicitly supplied snapshot
date (the `snapshotDate || getLastDayOfMonth(new Date())` defaulting and
the reload of hook state are outside the persisted-table semantics modelled
here): one upsert per region against the `monthly_ar_snapshots` table. -/
def createSnapshot (invoices : List Invoice) (user date : String)
    (table : List SnapshotRow) : List SnapshotRow :=
  snapshotRegions.foldl
    (fun t region => upsertSnapshotRow t (buildSnapshotRow invoices date user region))
    table

/-- Distinctness of snapshot-table keys, as guaranteed by the table's
composite uniqueness on (snapshot_date, region). -/
def snapshotKeysUnique (table : List SnapshotRow) : Prop :=
  table.Pairwise (fun a b =>
    ¬ (a.snapshot_date = b.snapshot_date ∧ a.region = b.region))

/-- Concrete-input helper: an `AspireInvoice` with the given id, remaining
amount and due-date string, all other fields blank. -/
def mkAspire (id : Int) (rem : ℚ) (due : String) : AspireInvoice :=
  { InvoiceID := id
    InvoiceNumber := ""
    CompanyName := ""
    PropertyName := none
    BranchName := ""
    Amount := rem
    AmountRemaining := rem
    DueDate := due
    InvoiceDate := ""
    BillingContactID := none
    BillingContactName := none
    BillingContactEmail := none
    PrimaryContactID := none
    PrimaryContactName := none
    PrimaryContactEmail := none
    PaymentTermsName := none
    InvoiceOpportunities := none }

/-- Concrete-input helper: a `ProcessedInvoiceData` payload with the given
id and remaining amount, all other fields blank. -/
def mkPayload (id : Int) (rem : ℚ) : ProcessedInvoiceData :=
  { invoice_id := id
    invoice_number := ""
    company_name := ""
    property_name := ""
    opportunity_name := ""
    opportunity_number := ""
    branch_name := ""
    amount := rem
    amount_remaining := rem
    due_date := none
    invoice_date := none
    past_due := 0
    aging_category := "Not Past Due"
    aging_1_30 := 0
    aging_31_60 := 0
    aging_61_90 := 0
    aging_91_120 := 0
    aging_121_plus := 0
    primary_contact_name := ""
    primary_contact_email := ""
    billing_contact_name := ""
    billing_contact_email := ""
    payment_terms_name := ""
    }

/-- Concrete-input helper: a stored `ar_aging_invoices` row with the given
nullable id and local-field values, payload columns blank. -/
def mkRow (oid : Option Int) (status : String) (ghosting terminated : Bool)
    (comm : String) : ArAgingRow :=
  { invoice_id := oid
    invoice_number := ""
    company_name := ""
    property_name := ""
    opportunity_name := ""
    opportunity_number := ""
    branch_name := ""
    amount := 0
    amount_remaining := 0
    due_date := none
    invoice_date := none
    past_due := 0
    aging_category := ""
    aging_1_30 := 0
    aging_31_60 := 0
    aging_61_90 := 0
    aging_91_120 := 0
    aging_121_plus := 0
    primary_contact_name := ""
    primary_contact_email := ""
    billing_contact_name := ""
    billing_contact_email := ""
    payment_terms_name := ""
    payment_status := status
    is_ghosting := ghosting
    is_terminated := terminated
    comments := comm }

/-- Concrete-input helper: a hook `Invoice` with the given company, branch,
remaining amount and five bucket amounts. -/
def mkInvoice (company branch : String) (rem a1 a2 a3 a4 a5 : ℚ) : Invoice :=
  { invoice_id := 1
    companyName := company
    branchName := branch
    amount := rem
    amountRemaining := rem
    aging_1_30 := a1
    aging_31_60 := a2
    aging_61_90 := a3
    aging_91_120 := a4
    aging_121_plus := a5 }

/-- Concrete-input helper: a date-string parser that knows only the epoch
date `1970-01-01`. -/
def parseEpochOnly : String → Option Int :=
  fun s => if s = "1970-01-01" then some 0 else none

/-- The amount a record contributes to a specific bucket summary: its
bucket field when positive, else nothing (part_005 579–598 guard the
`+=` with `> 0`). -/
def posPart (q : ℚ) : ℚ := if q > 0 then q else 0

end ARM

namespace ARM

/-! ## Theorems -/

/-- The `Math.floor((todayUTC - dueDateUTC) / msPerDay)` computation reduces
to a difference of calendar-day numbers: the local day of the wall clock
minus the UTC day of the due instant. -/
theorem dayDiff_eq (t tz m : Int) :
    (localDateStart t tz - utcDateStart m).fdiv msPerDay =
      epochDay (t + tz) - epochDay m := by
  unfold localDateStart utcDateStart
  rw [← mul_sub, Int.fdiv_eq_ediv _ (by decide : (0:Int) ≤ msPerDay)]
  exact Int.mul_ediv_cancel_left _ (by decide)

/-- Every `calculateAging` result carries one of the six (bucket, category)
label pairs. -/
theorem calculateAging_pair_mem (pf : String → Option Int) (now tz : Int)
    (d : String) :
    ((calculateAging pf now tz d).bucket,
        (calculateAging pf now tz d).agingCategory) ∈
      [("Current", "Not Past Due"), ("1-30", "Aging 1-30"),
       ("31-60", "Aging 31-60"), ("61-90", "Aging 61-90"),
       ("91-120", "Aging 91-120"), ("121+", "Aging 121+")] := by
  by_cases hd : d = ""
  · simp [calculateAging, hd]
  · cases hpf : pf d with
    | none => simp [calculateAging, hd, hpf]
    | some ms =>
      simp only [calculateAging, if_neg hd, hpf]
      split_ifs <;> decide

/-- C6: `calculateAging` assigns exactly one of the six bucket labels:
absent or unparseable due dates fall back to daysPastDue 0 / Current /
"Not Past Due"; a non-positive day difference clamps to 0 / Current; and a
positive day difference `n` lands in "1-30", "31-60", "61-90", "91-120" or
"121+" according to the 30-day thresholds (so n = 45 gives "31-60" with
daysPastDue 45). -/
theorem calculateAging_bucket_spec (pf : String → Option Int) (now tz : Int)
    (d : String) :
    (d = "" → calculateAging pf now tz d = ⟨0, "Current", "Not Past Due"⟩) ∧
    (pf d = none → calculateAging pf now tz d = ⟨0, "Current", "Not Past Due"⟩) ∧
    (∀ ms n, d ≠ "" → pf d = some ms → n = epochDay (now + tz) - epochDay ms →
      (n ≤ 0 → calculateAging pf now tz d = ⟨0, "Current", "Not Past Due"⟩) ∧
      (1 ≤ n → n ≤ 30 → calculateAging pf now tz d = ⟨n, "1-30", "Aging 1-30"⟩) ∧
      (31 ≤ n → n ≤ 60 → calculateAging pf now tz d = ⟨n, "31-60", "Aging 31-60"⟩) ∧
      (61 ≤ n → n ≤ 90 → calculateAging pf now tz d = ⟨n, "61-90", "Aging 61-90"⟩) ∧
      (91 ≤ n → n ≤ 120 → calculateAging pf now tz d = ⟨n, "91-120", "Aging 91-120"⟩) ∧
      (120 < n → calculateAging pf now tz d = ⟨n, "121+", "Aging 121+"⟩)) ∧
    (calculateAging pf now tz d).bucket ∈
      ["Current", "1-30", "31-60", "61-90", "91-120", "121+"] := by
  refine ⟨fun h => by simp [calculateAging, h], ?_, ?_, ?_⟩
  · intro h
    by_cases hd : d = ""
    · simp [calculateAging, hd]
    · simp [calculateAging, hd, h]
  · intro ms n hd hp hn
    have key : calculateAging pf now tz d =
        ⟨if n > 0 then n else 0,
          (if n > 120 then (("121+" : String), ("Aging 121+" : String))
            else if n > 90 then ("91-120", "Aging 91-120")
            else if n > 60 then ("61-90", "Aging 61-90")
            else if n > 30 then ("31-60", "Aging 31-60")
            else if n > 0 then ("1-30", "Aging 1-30")
            else ("Current", "Not Past Due")).1,
          (if n > 120 then (("121+" : String), ("Aging 121+" : String))
            else if n > 90 then ("91-120", "Aging 91-120")
            else if n > 60 then ("61-90", "Aging 61-90")
            else if n > 30 then ("31-60", "Aging 31-60")
            else if n > 0 then ("1-30", "Aging 1-30")
            else ("Current", "Not Past Due")).2⟩ := by
      simp only [calculateAging, if_neg hd, hp, dayDiff_eq, ← hn]
    refine ⟨?_, ?_, ?_, ?_, ?_, ?_⟩ <;>
      · intros
        rw [key]
        split_ifs <;> first | rfl | (exfalso; omega)
  · by_cases hd : d = ""
    · simp [calculateAging, hd]
    · cases hpf : pf d with
      | none => simp [calculateAging, hd, hpf]
      | some ms =>
        simp only [calculateAging, if_neg hd, hpf]
        split_ifs <;> decide

/-- Witness for C6: the due date 45 days before the as-of day yields bucket
"31-60" with daysPastDue 45. -/
theorem calculateAging_bucket_spec_witness :
    calculateAging parseEpochOnly (45 * 86400000) 0 "1970-01-01" =
      ⟨45, "31-60", "Aging 31-60"⟩ := by
  have h := (calculateAging_bucket_spec parseEpochOnly (45 * 86400000) 0
      "1970-01-01").2.2.1 0 45 (by decide) (by decide) (by decide)
  exact h.2.2.1 (by decide) (by decide)

/-- C2: the code computes "today" from the wall clock's *local* calendar
components (route.ts 421–423), so the timezone offset shifts the result at
the same instant: at 1970-01-01T23:30Z with due date 1970-01-01, an offset
of +2h yields daysPastDue 1 / "1-30" while offset 0 yields 0 / "Current",
even though both readings denote the same UTC calendar date. -/
theorem calculateAging_depends_on_timezone :
    calculateAging parseEpochOnly 84600000 7200000 "1970-01-01" =
        ⟨1, "1-30", "Aging 1-30"⟩ ∧
    calculateAging parseEpochOnly 84600000 0 "1970-01-01" =
        ⟨0, "Current", "Not Past Due"⟩ ∧
    calculateAging parseEpochOnly 84600000 7200000 "1970-01-01" ≠
      calculateAging parseEpochOnly 84600000 0 "1970-01-01" := by
  decide

/-- C1 counterexample: an invoice with positive remaining amount and no due
date is classified Current, so all five bucket-amount fields are zero and
their sum is not `amount_remaining` — the claimed partition invariant fails
on records produced by `processInvoiceData`. -/
theorem processInvoiceData_partition_fails_on_current :
    ∃ rec ∈ processInvoiceData parseEpochOnly 0 0 [mkAspire 5 100 ""],
      rec.aging_1_30 + rec.aging_31_60 + rec.aging_61_90 + rec.aging_91_120 +
        rec.aging_121_plus ≠ rec.amount_remaining := by
  refine ⟨processInvoice parseEpochOnly 0 0 (mkAspire 5 100 ""), by decide, ?_⟩
  have h1 : (processInvoice parseEpochOnly 0 0 (mkAspire 5 100 "")).aging_1_30 = 0 := by decide
  have h2 : (processInvoice parseEpochOnly 0 0 (mkAspire 5 100 "")).aging_31_60 = 0 := by decide
  have h3 : (processInvoice parseEpochOnly 0 0 (mkAspire 5 100 "")).aging_61_90 = 0 := by decide
  have h4 : (processInvoice parseEpochOnly 0 0 (mkAspire 5 100 "")).aging_91_120 = 0 := by decide
  have h5 : (processInvoice parseEpochOnly 0 0 (mkAspire 5 100 "")).aging_121_plus = 0 := by decide
  have hr : (processInvoice parseEpochOnly 0 0 (mkAspire 5 100 "")).amount_remaining = 100 := by decide
  rw [h1, h2, h3, h4, h5, hr]
  norm_num

/-- C1 (amended): for every record produced by `processInvoiceData`, at
most one of the five bucket-amount fields is non-zero; when the record is
past due (category ≠ "Not Past Due") the field matching its aging category
equals `amount_remaining` and the five fields sum to `amount_remaining`;
when the record is Current ("Not Past Due") all five fields are zero (so
their sum is 0, not `amount_remaining`). -/
theorem processInvoiceData_bucket_partition (pf : String → Option Int)
    (now tz : Int) (invoices : List AspireInvoice) (rec : ProcessedInvoiceData)
    (hrec : rec ∈ processInvoiceData pf now tz invoices) :
    (rec.aging_1_30 ≠ 0 → rec.aging_31_60 = 0 ∧ rec.aging_61_90 = 0 ∧
        rec.aging_91_120 = 0 ∧ rec.aging_121_plus = 0) ∧
    (rec.aging_31_60 ≠ 0 → rec.aging_1_30 = 0 ∧ rec.aging_61_90 = 0 ∧
        rec.aging_91_120 = 0 ∧ rec.aging_121_plus = 0) ∧
    (rec.aging_61_90 ≠ 0 → rec.aging_1_30 = 0 ∧ rec.aging_31_60 = 0 ∧
        rec.aging_91_120 = 0 ∧ rec.aging_121_plus = 0) ∧
    (rec.aging_91_120 ≠ 0 → rec.aging_1_30 = 0 ∧ rec.aging_31_60 = 0 ∧
        rec.aging_61_90 = 0 ∧ rec.aging_121_plus = 0) ∧
    (rec.aging_121_plus ≠ 0 → rec.aging_1_30 = 0 ∧ rec.aging_31_60 = 0 ∧
        rec.aging_61_90 = 0 ∧ rec.aging_91_120 = 0) ∧
    (rec.aging_category ≠ "Not Past Due" →
      rec.aging_1_30 + rec.aging_31_60 + rec.aging_61_90 + rec.aging_91_120 +
        rec.aging_121_plus = rec.amount_remaining) ∧
    (rec.aging_category = "Not Past Due" →
      rec.aging_1_30 = 0 ∧ rec.aging_31_60 = 0 ∧ rec.aging_61_90 = 0 ∧
        rec.aging_91_120 = 0 ∧ rec.aging_121_plus = 0) ∧
    (rec.aging_category = "Aging 1-30" → rec.aging_1_30 = rec.amount_remaining) ∧
    (rec.aging_category = "Aging 31-60" → rec.aging_31_60 = rec.amount_remaining) ∧
    (rec.aging_category = "Aging 61-90" → rec.aging_61_90 = rec.amount_remaining) ∧
    (rec.aging_category = "Aging 91-120" → rec.aging_91_120 = rec.amount_remaining) ∧
    (rec.aging_category = "Aging 121+" → rec.aging_121_plus = rec.amount_remaining) := by
  rw [processInvoiceData, List.mem_map] at hrec
  obtain ⟨inv, hinv, rfl⟩ := hrec
  have hm := calculateAging_pair_mem pf now tz inv.DueDate
  simp only [List.mem_cons, List.not_mem_nil, or_false, Prod.mk.injEq] at hm
  rcases hm with ⟨h1, h2⟩ | ⟨h1, h2⟩ | ⟨h1, h2⟩ | ⟨h1, h2⟩ | ⟨h1, h2⟩ | ⟨h1, h2⟩ <;>
    simp [processInvoice, h1, h2]

/-- If `a ++ b` is a prefix of `s` then `b` occurs in `s`. -/
theorem containsSub_of_prefixAppend (a : List Char) :
    ∀ {b s : List Char}, isPrefixCharList (a ++ b) s = true →
      containsSub b s = true := by
  induction a with
  | nil =>
    intro b s h
    cases s with
    | nil => exact h
    | cons c t =>
      simp only [containsSub, Bool.or_eq_true]
      exact Or.inl h
  | cons x a' ih =>
    intro b s h
    cases s with
    | nil => simp [isPrefixCharList] at h
    | cons c t =>
      simp only [isPrefixCharList, Bool.and_eq_true, List.cons_append] at h
      simp only [containsSub, Bool.or_eq_true]
      exact Or.inr (ih h.2)

/-- Occurrence of `a ++ b` in `s` implies occurrence of `b` in `s`
(so `includes("las vegas")` implies `includes("vegas")`). -/
theorem containsSub_append_right (a b : List Char) :
    ∀ s, containsSub (a ++ b) s = true → containsSub b s = true := by
  intro s
  induction s with
  | nil => exact fun h => containsSub_of_prefixAppend a h
  | cons c t ih =>
    intro h
    simp only [containsSub, Bool.or_eq_true] at h
    rcases h with h | h
    · exact containsSub_of_prefixAppend a h
    · simp only [containsSub, Bool.or_eq_true]
      exact Or.inr (ih h)

/-- C9: the region predicates: `phoenix` holds exactly on the fixed branch
allowlist; `las-vegas` holds exactly when the lowercased branch name
contains the substring "vegas" (the source's second disjunct
`includes("las vegas")` is subsumed); `all` passes every record; and the
two example branch names behave as the spec's scenario states. -/
theorem regionMatch_spec :
    (∀ inv : Invoice,
        regionMatch .phoenix inv = true ↔ inv.branchName ∈ phoenixBranches) ∧
    (∀ inv : Invoice, regionMatch .lasVegas inv = true ↔
        jsIncludes (jsToLowerCase inv.branchName) "vegas" = true) ∧
    (∀ inv : Invoice, regionMatch .all inv = true) ∧
    regionMatch .lasVegas (mkInvoice "LV" "Las Vegas - Strip" 0 0 0 0 0 0) = true ∧
    regionMatch .lasVegas (mkInvoice "P" "Phx - North" 0 0 0 0 0 0) = false := by
  refine ⟨fun inv => by simp [regionMatch], fun inv => ?_, fun inv => rfl,
    by decide, by decide⟩
  simp only [regionMatch, Bool.or_eq_true]
  constructor
  · rintro (h | h)
    · exact h
    · have hsplit : ("las vegas").data = ("las ").data ++ ("vegas").data := by decide
      simpa [jsIncludes] using
        containsSub_append_right ("las ").data ("vegas").data _
          (by simpa [jsIncludes, hsplit] using h)
  · exact fun h => Or.inl h

/-- Witness for C9: the Phoenix predicate accepts the allowlisted branch
"Phx - North". -/
theorem regionMatch_spec_witness :
    regionMatch .phoenix (mkInvoice "P" "Phx - North" 0 0 0 0 0 0) = true :=
  (regionMatch_spec.1 _).mpr (by decide)

/-- The `all` summary after one invoice: count up one, value up by the
remaining amount (the bucket branches never touch `all`). -/
theorem addInvoiceToSummaries_all (s : BucketSummaries) (i : Invoice) :
    (addInvoiceToSummaries s i).all =
      ⟨s.all.count + 1, s.all.value + i.amountRemaining⟩ := by
  simp only [addInvoiceToSummaries]
  split_ifs <;> rfl

/-- The "1-30" summary after one invoice. -/
theorem addInvoiceToSummaries_b1_30 (s : BucketSummaries) (i : Invoice) :
    (addInvoiceToSummaries s i).b1_30 =
      if i.aging_1_30 > 0 then ⟨s.b1_30.count + 1, s.b1_30.value + i.aging_1_30⟩
      else s.b1_30 := by
  simp only [addInvoiceToSummaries]
  split_ifs <;> rfl

/-- The "31-60" summary after one invoice. -/
theorem addInvoiceToSummaries_b31_60 (s : BucketSummaries) (i : Invoice) :
    (addInvoiceToSummaries s i).b31_60 =
      if i.aging_31_60 > 0 then ⟨s.b31_60.count + 1, s.b31_60.value + i.aging_31_60⟩
      else s.b31_60 := by
  simp only [addInvoiceToSummaries]
  split_ifs <;> rfl

/-- The "61-90" summary after one invoice. -/
theorem addInvoiceToSummaries_b61_90 (s : BucketSummaries) (i : Invoice) :
    (addInvoiceToSummaries s i).b61_90 =
      if i.aging_61_90 > 0 then ⟨s.b61_90.count + 1, s.b61_90.value + i.aging_61_90⟩
      else s.b61_90 := by
  simp only [addInvoiceToSummaries]
  split_ifs <;> rfl

/-- The "91-120" summary after one invoice. -/
theorem addInvoiceToSummaries_b91_120 (s : BucketSummaries) (i : Invoice) :
    (addInvoiceToSummaries s i).b91_120 =
      if i.aging_91_120 > 0 then ⟨s.b91_120.count + 1, s.b91_120.value + i.aging_91_120⟩
      else s.b91_120 := by
  simp only [addInvoiceToSummaries]
  split_ifs <;> rfl

/-- The "121+" summary after one invoice. -/
theorem addInvoiceToSummaries_b121_plus (s : BucketSummaries) (i : Invoice) :
    (addInvoiceToSummaries s i).b121_plus =
      if i.aging_121_plus > 0 then
        ⟨s.b121_plus.count + 1, s.b121_plus.value + i.aging_121_plus⟩
      else s.b121_plus := by
  simp only [addInvoiceToSummaries]
  split_ifs <;> rfl

/-- Folding a record list accumulates `all.value` by the sum of remaining
amounts. -/
theorem foldl_summaries_all_value (l : List Invoice) (s : BucketSummaries) :
    (l.foldl addInvoiceToSummaries s).all.value =
      s.all.value + (l.map (fun i => i.amountRemaining)).sum := by
  induction l generalizing s with
  | nil => simp
  | cons i t ih =>
    simp only [List.foldl_cons, List.map_cons, List.sum_cons]
    rw [ih, addInvoiceToSummaries_all]
    ring

/-- Folding a record list accumulates the "1-30" value by the positive
parts of the `aging_1_30` fields. -/
theorem foldl_summaries_b1_30_value (l : List Invoice) (s : BucketSummaries) :
    (l.foldl addInvoiceToSummaries s).b1_30.value =
      s.b1_30.value + (l.map (fun i => posPart i.aging_1_30)).sum := by
  induction l generalizing s with
  | nil => simp
  | cons i t ih =>
    simp only [List.foldl_cons, List.map_cons, List.sum_cons]
    rw [ih, addInvoiceToSummaries_b1_30]
    unfold posPart
    split_ifs <;> ring

/-- Folding a record list accumulates the "31-60" value by the positive
parts of the `aging_31_60` fields. -/
theorem foldl_summaries_b31_60_value (l : List Invoice) (s : BucketSummaries) :
    (l.foldl addInvoiceToSummaries s).b31_60.value =
      s.b31_60.value + (l.map (fun i => posPart i.aging_31_60)).sum := by
  induction l generalizing s with
  | nil => simp
  | cons i t ih =>
    simp only [List.foldl_cons, List.map_cons, List.sum_cons]
    rw [ih, addInvoiceToSummaries_b31_60]
    unfold posPart
    split_ifs <;> ring

/-- Folding a record list accumulates the "61-90" value by the positive
parts of the `aging_61_90` fields. -/
theorem foldl_summaries_b61_90_value (l : List Invoice) (s : BucketSummaries) :
    (l.foldl addInvoiceToSummaries s).b61_90.value =
      s.b61_90.value + (l.map (fun i => posPart i.aging_61_90)).sum := by
  induction l generalizing s with
  | nil => simp
  | cons i t ih =>
    simp only [List.foldl_cons, List.map_cons, List.sum_cons]
    rw [ih, addInvoiceToSummaries_b61_90]
    unfold posPart
    split_ifs <;> ring

/-- Folding a record list accumulates the "91-120" value by the positive
parts of the `aging_91_120` fields. -/
theorem foldl_summaries_b91_120_value (l : List Invoice) (s : BucketSummaries) :
    (l.foldl addInvoiceToSummaries s).b91_120.value =
      s.b91_120.value + (l.map (fun i => posPart i.aging_91_120)).sum := by
  induction l generalizing s with
  | nil => simp
  | cons i t ih =>
    simp only [List.foldl_cons, List.map_cons, List.sum_cons]
    rw [ih, addInvoiceToSummaries_b91_120]
    unfold posPart
    split_ifs <;> ring

/-- Folding a record list accumulates the "121+" value by the positive
parts of the `aging_121_plus` fields. -/
theorem foldl_summaries_b121_plus_value (l : List Invoice) (s : BucketSummaries) :
    (l.foldl addInvoiceToSummaries s).b121_plus.value =
      s.b121_plus.value + (l.map (fun i => posPart i.aging_121_plus)).sum := by
  induction l generalizing s with
  | nil => simp
  | cons i t ih =>
    simp only [List.foldl_cons, List.map_cons, List.sum_cons]
    rw [ih, addInvoiceToSummaries_b121_plus]
    unfold posPart
    split_ifs <;> ring

/-- When every record's five nonnegative bucket fields sum to its remaining
amount, the bucket-wise positive-part sums add up to the total remaining
amount. -/
theorem sum_posParts_eq (l : List Invoice)
    (h : ∀ inv ∈ l, 0 ≤ inv.aging_1_30 ∧ 0 ≤ inv.aging_31_60 ∧
      0 ≤ inv.aging_61_90 ∧ 0 ≤ inv.aging_91_120 ∧ 0 ≤ inv.aging_121_plus ∧
      inv.aging_1_30 + inv.aging_31_60 + inv.aging_61_90 + inv.aging_91_120 +
        inv.aging_121_plus = inv.amountRemaining) :
    (l.map (fun i => posPart i.aging_1_30)).sum +
      (l.map (fun i => posPart i.aging_31_60)).sum +
      (l.map (fun i => posPart i.aging_61_90)).sum +
      (l.map (fun i => posPart i.aging_91_120)).sum +
      (l.map (fun i => posPart i.aging_121_plus)).sum =
      (l.map (fun i => i.amountRemaining)).sum := by
  induction l with
  | nil => simp
  | cons i t ih =>
    have hi := h i (List.mem_cons_self i t)
    have ht := ih (fun inv hm => h inv (List.mem_cons_of_mem i hm))
    have p1 : posPart i.aging_1_30 = i.aging_1_30 := by
      unfold posPart; split_ifs with hh
      · rfl
      · linarith [hi.1]
    have p2 : posPart i.aging_31_60 = i.aging_31_60 := by
      unfold posPart; split_ifs with hh
      · rfl
      · linarith [hi.2.1]
    have p3 : posPart i.aging_61_90 = i.aging_61_90 := by
      unfold posPart; split_ifs with hh
      · rfl
      · linarith [hi.2.2.1]
    have p4 : posPart i.aging_91_120 = i.aging_91_120 := by
      unfold posPart; split_ifs with hh
      · rfl
      · linarith [hi.2.2.2.1]
    have p5 : posPart i.aging_121_plus = i.aging_121_plus := by
      unfold posPart; split_ifs with hh
      · rfl
      · linarith [hi.2.2.2.2.1]
    simp only [List.map_cons, List.sum_cons]
    rw [p1, p2, p3, p4, p5]
    linarith [hi.2.2.2.2.2, ht]

/-- C3 counterexample: a record with remaining amount 100 but all five
bucket fields zero (a Current invoice) contributes to the `all` value but
to none of the five bucket values, so the five bucket values do not sum to
the `all` value. -/
theorem getBucketSummaries_sum_fails :
    (getBucketSummaries [mkInvoice "Acme" "B" 100 0 0 0 0 0] .all).b1_30.value +
      (getBucketSummaries [mkInvoice "Acme" "B" 100 0 0 0 0 0] .all).b31_60.value +
      (getBucketSummaries [mkInvoice "Acme" "B" 100 0 0 0 0 0] .all).b61_90.value +
      (getBucketSummaries [mkInvoice "Acme" "B" 100 0 0 0 0 0] .all).b91_120.value +
      (getBucketSummaries [mkInvoice "Acme" "B" 100 0 0 0 0 0] .all).b121_plus.value ≠
      (getBucketSummaries [mkInvoice "Acme" "B" 100 0 0 0 0 0] .all).all.value := by
  unfold getBucketSummaries
  rw [show List.filter (regionMatch Region.all) [mkInvoice "Acme" "B" 100 0 0 0 0 0] =
      [mkInvoice "Acme" "B" 100 0 0 0 0 0] from rfl]
  rw [foldl_summaries_all_value, foldl_summaries_b1_30_value,
    foldl_summaries_b31_60_value, foldl_summaries_b61_90_value,
    foldl_summaries_b91_120_value, foldl_summaries_b121_plus_value]
  norm_num [initSummaries, posPart, mkInvoice]

/-- C3 (amended): the `all` value of `getBucketSummaries` equals the sum of
remaining amounts over the region-filtered records, unconditionally; and
whenever every filtered record's five nonnegative bucket fields sum to its
remaining amount (the partition invariant of past-due-classified records),
the five bucket values also sum to the `all` value. -/
theorem getBucketSummaries_consistency (invoices : List Invoice)
    (region : Region) :
    (getBucketSummaries invoices region).all.value =
      ((invoices.filter (regionMatch region)).map
        (fun i => i.amountRemaining)).sum ∧
    ((∀ inv ∈ invoices.filter (regionMatch region), 0 ≤ inv.aging_1_30 ∧
        0 ≤ inv.aging_31_60 ∧ 0 ≤ inv.aging_61_90 ∧ 0 ≤ inv.aging_91_120 ∧
        0 ≤ inv.aging_121_plus ∧
        inv.aging_1_30 + inv.aging_31_60 + inv.aging_61_90 + inv.aging_91_120 +
          inv.aging_121_plus = inv.amountRemaining) →
      (getBucketSummaries invoices region).b1_30.value +
        (getBucketSummaries invoices region).b31_60.value +
        (getBucketSummaries invoices region).b61_90.value +
        (getBucketSummaries invoices region).b91_120.value +
        (getBucketSummaries invoices region).b121_plus.value =
        (getBucketSummaries invoices region).all.value) := by
  constructor
  · unfold getBucketSummaries
    rw [foldl_summaries_all_value]
    simp [initSummaries]
  · intro h
    unfold getBucketSummaries
    rw [foldl_summaries_all_value, foldl_summaries_b1_30_value,
      foldl_summaries_b31_60_value, foldl_summaries_b61_90_value,
      foldl_summaries_b91_120_value, foldl_summaries_b121_plus_value]
    have hs := sum_posParts_eq _ h
    simp only [initSummaries]
    linarith [hs]

/-- Witness for C3 (amended) on a single 1-30-bucketed record: the bucket
values sum to the `all` value. -/
theorem getBucketSummaries_consistency_witness :
    (getBucketSummaries [mkInvoice "Acme" "B" 100 100 0 0 0 0] .all).b1_30.value +
      (getBucketSummaries [mkInvoice "Acme" "B" 100 100 0 0 0 0] .all).b31_60.value +
      (getBucketSummaries [mkInvoice "Acme" "B" 100 100 0 0 0 0] .all).b61_90.value +
      (getBucketSummaries [mkInvoice "Acme" "B" 100 100 0 0 0 0] .all).b91_120.value +
      (getBucketSummaries [mkInvoice "Acme" "B" 100 100 0 0 0 0] .all).b121_plus.value =
      (getBucketSummaries [mkInvoice "Acme" "B" 100 100 0 0 0 0] .all).all.value := by
  apply (getBucketSummaries_consistency [mkInvoice "Acme" "B" 100 100 0 0 0 0]
    Region.all).2
  intro inv hm
  simp only [List.mem_filter, List.mem_singleton] at hm
  obtain ⟨rfl, -⟩ := hm
  refine ⟨by norm_num [mkInvoice], by norm_num [mkInvoice], by norm_num [mkInvoice],
    by norm_num [mkInvoice], by norm_num [mkInvoice], by norm_num [mkInvoice]⟩

/-- Witness for C1 (amended) on an invoice 45 days past due: the "31-60"
field carries the full remaining amount and the bucket fields sum to it. -/
theorem processInvoiceData_bucket_partition_witness :
    ∃ rec ∈ processInvoiceData parseEpochOnly (45 * 86400000) 0
        [mkAspire 5 100 "1970-01-01"],
      rec.aging_31_60 = rec.amount_remaining ∧
        rec.aging_1_30 + rec.aging_31_60 + rec.aging_61_90 + rec.aging_91_120 +
          rec.aging_121_plus = rec.amount_remaining := by
  refine ⟨processInvoice parseEpochOnly (45 * 86400000) 0
      (mkAspire 5 100 "1970-01-01"), by decide, ?_, ?_⟩
  · exact (processInvoiceData_bucket_partition parseEpochOnly (45 * 86400000) 0
      [mkAspire 5 100 "1970-01-01"] _ (by decide)).2.2.2.2.2.2.2.2.1 (by decide)
  · exact (processInvoiceData_bucket_partition parseEpochOnly (45 * 86400000) 0
      [mkAspire 5 100 "1970-01-01"] _ (by decide)).2.2.2.2.2.1 (by decide)

/-- The number of pages fetched by the pagination loop never exceeds its
fuel. -/
theorem fetchLoop_pages_le (pages : Int → List AspireInvoice) :
    ∀ (fuel : Nat) (c : Int), (fetchLoop pages c fuel).2 ≤ fuel := by
  intro fuel
  induction fuel with
  | zero => intro c; simp [fetchLoop]
  | succ n ih =>
    intro c
    simp only [fetchLoop]
    split_ifs
    · simp
    · simp
    · have h := ih (maxIdOf (pages (filterFor c)))
      simp only []
      omega

/-- Unfolding `deletedIdsOfOps` over a leading delete. -/
theorem deletedIdsOfOps_cons_del (ids : List Int) (t : List WriteOp) :
    deletedIdsOfOps (WriteOp.del ids :: t) = ids ++ deletedIdsOfOps t := rfl

/-- Unfolding `deletedIdsOfOps` over a leading upsert. -/
theorem deletedIdsOfOps_cons_ups (b : List ProcessedInvoiceData)
    (t : List WriteOp) :
    deletedIdsOfOps (WriteOp.ups b :: t) = deletedIdsOfOps t := rfl

/-- `deletedIdsOfOps` distributes over concatenation of write traces. -/
theorem deletedIdsOfOps_append (ops1 ops2 : List WriteOp) :
    deletedIdsOfOps (ops1 ++ ops2) =
      deletedIdsOfOps ops1 ++ deletedIdsOfOps ops2 := by
  induction ops1 with
  | nil => rfl
  | cons o t ih =>
    cases o with
    | del ids =>
      rw [List.cons_append, deletedIdsOfOps_cons_del, deletedIdsOfOps_cons_del,
        ih, List.append_assoc]
    | ups b =>
      rw [List.cons_append, deletedIdsOfOps_cons_ups, deletedIdsOfOps_cons_ups,
        ih]

/-- Upsert operations contribute no deleted ids. -/
theorem deletedIdsOfOps_map_ups (l : List (List ProcessedInvoiceData)) :
    deletedIdsOfOps (l.map WriteOp.ups) = [] := by
  induction l with
  | nil => rfl
  | cons b t ih =>
    rw [List.map_cons, deletedIdsOfOps_cons_ups, ih]

/-- Membership in the computed delete-id list: a non-zero id stored in some
row and absent from the fresh batch's ids. -/
theorem mem_idsToDeleteOf (rows : List ArAgingRow) (ids : List Int) (i : Int) :
    i ∈ idsToDeleteOf rows ids ↔
      (∃ r ∈ rows, r.invoice_id = some i) ∧ i ≠ 0 ∧ i ∉ ids := by
  unfold idsToDeleteOf
  rw [List.mem_filterMap]
  constructor
  · rintro ⟨r, hr, hval⟩
    cases hid : r.invoice_id with
    | none => rw [hid] at hval; cases hval
    | some j =>
      rw [hid] at hval
      have hval' : (if j ≠ 0 ∧ j ∉ ids then some j else none) = some i := hval
      by_cases hc : j ≠ 0 ∧ j ∉ ids
      · rw [if_pos hc] at hval'
        obtain rfl := Option.some.inj hval'
        exact ⟨⟨r, hr, hid⟩, hc.1, hc.2⟩
      · rw [if_neg hc] at hval'; cases hval'
  · rintro ⟨⟨r, hr, hid⟩, hne, hnin⟩
    refine ⟨r, hr, ?_⟩
    rw [hid]
    show (if i ≠ 0 ∧ i ∉ ids then some i else none) = some i
    rw [if_pos ⟨hne, hnin⟩]

/-- C7: the pagination loop fetches at most 100 pages; any page shorter
than the page size (1000) — including an empty page — is the last fetch,
returning what was collected; and a failed page fetch is caught by
`fetchInvoicesBatch` and becomes an empty page rather than an
exception. -/
theorem fetchAllInvoices_pagination
    (raw : Int → Except String (List AspireInvoice)) :
    (fetchAllInvoices (fun c => fetchInvoicesBatch (raw c))).2 ≤ maxPages ∧
    (∀ (c : Int) (fuel : Nat),
      (fetchInvoicesBatch (raw (filterFor c))).length < PAGE_SIZE →
      fetchLoop (fun c => fetchInvoicesBatch (raw c)) c (fuel + 1) =
        (fetchInvoicesBatch (raw (filterFor c)), 1)) ∧
    (∀ e : String, fetchInvoicesBatch (Except.error e) =
      ([] : List AspireInvoice)) := by
  refine ⟨fetchLoop_pages_le _ maxPages 0, ?_, fun e => rfl⟩
  intro c fuel h
  simp only [fetchLoop]
  split_ifs with h0
  · rw [List.length_eq_zero.mp h0]
  · rfl

/-- Witness for C7: a failing first fetch ends pagination after one page
with no invoices collected. -/
theorem fetchAllInvoices_pagination_witness :
    fetchLoop
      (fun c => fetchInvoicesBatch
        ((fun _ : Int =>
          (Except.error "API failed" : Except String (List AspireInvoice))) c))
      0 (99 + 1) =
      (fetchInvoicesBatch
        ((fun _ : Int =>
          (Except.error "API failed" : Except String (List AspireInvoice)))
            (filterFor 0)), 1) :=
  (fetchAllInvoices_pagination
    (fun _ => Except.error "API failed")).2.1 0 99 (by decide)

/-- C4 counterexample: a stored row with `invoice_id = 0` absent from the
fresh batch is nevertheless not deleted, because the source's truthiness
guard `inv.invoice_id && ...` (route.ts 490) drops the id 0 — against the
claim that exactly the stored-but-absent ids are deleted. -/
theorem writeToSupabase_truthiness_gap :
    isMigrationState [mkRow (some 0) "" false false ""] = false ∧
    (∃ r ∈ [mkRow (some 0) "" false false ""], r.invoice_id = some 0) ∧
    (0 : Int) ∉ ([] : List ProcessedInvoiceData).map (fun p => p.invoice_id) ∧
    deletedIdsOfOps (writeToSupabase [mkRow (some 0) "" false false ""] []).2 =
      [] := by
  refine ⟨rfl, ⟨mkRow (some 0) "" false false "", by decide, rfl⟩, by decide,
    by decide⟩

/-- C4 (amended): the ids deleted by the sync write step are exactly the
non-zero ids present (non-null) in the existing store and absent from the
fresh batch — except in migration mode (first sampled row has a null
`invoice_id`), where no delete is issued at all; and every delete
operation precedes every upsert operation in the write trace. -/
theorem writeToSupabase_delete_spec (rows : List ArAgingRow)
    (data : List ProcessedInvoiceData) :
    (∀ i : Int, i ∈ deletedIdsOfOps (writeToSupabase rows data).2 ↔
      (isMigrationState rows = false ∧ i ≠ 0 ∧
        (∃ r ∈ rows, r.invoice_id = some i) ∧
        i ∉ data.map (fun p => p.invoice_id))) ∧
    (isMigrationState rows = true →
      deletedIdsOfOps (writeToSupabase rows data).2 = []) ∧
    (∃ dOps uOps, (writeToSupabase rows data).2 = dOps ++ uOps ∧
      (∀ o ∈ dOps, o.isDel = true) ∧ (∀ o ∈ uOps, o.isDel = false)) := by
  have hsnd : (writeToSupabase rows data).2 =
      (deleteStep rows (data.map (fun p => p.invoice_id))).2 ++
        (chunksOf500 data).map WriteOp.ups := rfl
  have hdel : deletedIdsOfOps (writeToSupabase rows data).2 =
      deletedIdsOfOps (deleteStep rows (data.map (fun p => p.invoice_id))).2 := by
    rw [hsnd, deletedIdsOfOps_append, deletedIdsOfOps_map_ups, List.append_nil]
  have hsteps : (deleteStep rows (data.map (fun p => p.invoice_id))).2 =
      if isMigrationState rows then []
      else if idsToDeleteOf rows (data.map (fun p => p.invoice_id)) = [] then []
      else [WriteOp.del (idsToDeleteOf rows (data.map (fun p => p.invoice_id)))] := by
    simp only [deleteStep]
    split_ifs <;> rfl
  have hstep : ∀ o ∈ (deleteStep rows (data.map (fun p => p.invoice_id))).2,
      o.isDel = true := by
    intro o ho
    rw [hsteps] at ho
    split_ifs at ho
    · cases ho
    · cases ho
    · simp only [List.mem_singleton] at ho
      subst ho
      rfl
  refine ⟨?_, ?_, ⟨(deleteStep rows (data.map (fun p => p.invoice_id))).2,
    (chunksOf500 data).map WriteOp.ups, hsnd, hstep, ?_⟩⟩
  · intro i
    rw [hdel, hsteps]
    split_ifs with hm he
    · simp only [deletedIdsOfOps, List.foldr_nil, List.not_mem_nil, false_iff]
      rintro ⟨hmf, -⟩
      rw [hm] at hmf
      cases hmf
    · simp only [deletedIdsOfOps, List.foldr_nil, List.not_mem_nil, false_iff]
      rintro ⟨-, hne, hex, hnin⟩
      have hmem : i ∈ idsToDeleteOf rows (data.map (fun p => p.invoice_id)) :=
        (mem_idsToDeleteOf rows _ i).mpr ⟨hex, hne, hnin⟩
      rw [he] at hmem
      cases hmem
    · rw [deletedIdsOfOps_cons_del,
        show deletedIdsOfOps [] = [] from rfl, List.append_nil,
        mem_idsToDeleteOf]
      have hmf : isMigrationState rows = false := by
        simpa using hm
      constructor
      · rintro ⟨hex, hne, hnin⟩
        exact ⟨hmf, hne, hex, hnin⟩
      · rintro ⟨-, hne, hex, hnin⟩
        exact ⟨hex, hne, hnin⟩
  · intro hm
    rw [hdel, hsteps, if_pos hm]
    rfl
  · intro o ho
    simp only [List.mem_map] at ho
    obtain ⟨b, -, rfl⟩ := ho
    rfl

/-- The store contents after the conditional delete step. -/
theorem deleteStep_fst (rows : List ArAgingRow) (ids : List Int) :
    (deleteStep rows ids).1 =
      if isMigrationState rows then rows
      else if idsToDeleteOf rows ids = [] then rows
      else rows.filter
        (fun r => ¬ ∃ i ∈ idsToDeleteOf rows ids, r.invoice_id = some i) := by
  simp only [deleteStep]
  split_ifs <;> rfl

/-- One payload upsert maps every existing row to a row with the same
`invoice_id` and untouched local-only columns (the payload has no local
fields, so a conflicting update leaves them alone and a non-matching row is
unchanged). -/
theorem applyUpsert_preserves (s : List ArAgingRow) (p : ProcessedInvoiceData)
    (r : ArAgingRow) (hr : r ∈ s) :
    ∃ r' ∈ applyUpsert s p, r'.invoice_id = r.invoice_id ∧
      r'.payment_status = r.payment_status ∧ r'.is_ghosting = r.is_ghosting ∧
      r'.is_terminated = r.is_terminated ∧ r'.comments = r.comments := by
  unfold applyUpsert
  split_ifs with hex
  · refine ⟨if r.invoice_id = some p.invoice_id then setSyncedColumns r p else r,
      List.mem_map_of_mem _ hr, ?_⟩
    split_ifs with hid
    · exact ⟨by rw [hid]; rfl, rfl, rfl, rfl, rfl⟩
    · exact ⟨rfl, rfl, rfl, rfl, rfl⟩
  · exact ⟨r, List.mem_append_left _ hr, rfl, rfl, rfl, rfl, rfl⟩

/-- Folding a whole batch of payload upserts preserves the `invoice_id` and
local-only columns of every row already in the store. -/
theorem foldl_applyUpsert_preserves (l : List ProcessedInvoiceData) :
    ∀ (s : List ArAgingRow) (r : ArAgingRow), r ∈ s →
    ∃ r' ∈ l.foldl applyUpsert s, r'.invoice_id = r.invoice_id ∧
      r'.payment_status = r.payment_status ∧ r'.is_ghosting = r.is_ghosting ∧
      r'.is_terminated = r.is_terminated ∧ r'.comments = r.comments := by
  induction l with
  | nil => exact fun s r hr => ⟨r, hr, rfl, rfl, rfl, rfl, rfl⟩
  | cons p t ih =>
    intro s r hr
    obtain ⟨r1, hr1, h1, h2, h3, h4, h5⟩ := applyUpsert_preserves s p r hr
    obtain ⟨r', hr', g1, g2, g3, g4, g5⟩ := ih (applyUpsert s p) r1 hr1
    rw [List.foldl_cons]
    exact ⟨r', hr', by rw [g1, h1], by rw [g2, h2], by rw [g3, h3],
      by rw [g4, h4], by rw [g5, h5]⟩

/-- With enough fuel, folding over the chunked batches is folding over the
whole batch. -/
theorem chunksAux_foldl :
    ∀ (fuel : Nat) (l : List ProcessedInvoiceData) (s : List ArAgingRow),
      l.length ≤ fuel →
      (chunksAux fuel l).foldl (fun s b => b.foldl applyUpsert s) s =
        l.foldl applyUpsert s := by
  intro fuel
  induction fuel with
  | zero =>
    intro l s h
    obtain rfl := List.length_eq_zero.mp (Nat.le_zero.mp h)
    rfl
  | succ n ih =>
    intro l s h
    cases l with
    | nil => rfl
    | cons a as =>
      simp only [chunksAux]
      rw [List.foldl_cons, ih ((a :: as).drop 500) _ (by
        simp only [List.length_drop, List.length_cons]
        simp only [List.length_cons] at h
        omega)]
      rw [← List.foldl_append, List.take_append_drop]

/-- C5: `ProcessedInvoiceData` carries no `payment_status`, `is_ghosting`,
`is_terminated` or `comments` fields, so for any stored row whose
`invoice_id` appears in the fresh batch, the sync write (delete step plus
batched upserts) leaves a row with that id whose four local-only columns
are exactly as they were. -/
theorem sync_preserves_local_fields (rows : List ArAgingRow)
    (data : List ProcessedInvoiceData) (r : ArAgingRow) (i : Int)
    (hr : r ∈ rows) (hid : r.invoice_id = some i)
    (hin : i ∈ data.map (fun p => p.invoice_id)) :
    ∃ r' ∈ (writeToSupabase rows data).1,
      r'.invoice_id = some i ∧ r'.payment_status = r.payment_status ∧
      r'.is_ghosting = r.is_ghosting ∧ r'.is_terminated = r.is_terminated ∧
      r'.comments = r.comments := by
  have hfst : (writeToSupabase rows data).1 =
      (chunksOf500 data).foldl (fun s b => b.foldl applyUpsert s)
        (deleteStep rows (data.map (fun p => p.invoice_id))).1 := rfl
  have hdelstep : r ∈ (deleteStep rows (data.map (fun p => p.invoice_id))).1 := by
    rw [deleteStep_fst]
    split_ifs with hm he
    · exact hr
    · exact hr
    · rw [List.mem_filter]
      refine ⟨hr, ?_⟩
      rw [decide_eq_true_eq]
      rintro ⟨j, hj, hjid⟩
      rw [hid] at hjid
      obtain rfl := Option.some.inj hjid
      exact ((mem_idsToDeleteOf rows _ _).mp hj).2.2 hin
  rw [hfst, chunksOf500, chunksAux_foldl data.length data _ le_rfl]
  obtain ⟨r', hr', h1, h2, h3, h4, h5⟩ :=
    foldl_applyUpsert_preserves data _ r hdelstep
  exact ⟨r', hr', by rw [h1, hid], h2, h3, h4, h5⟩

/-- Witness for C5: a stored row for invoice 7 with ghosting set, a batch
still containing invoice 7 — after the sync write some row for invoice 7
still has ghosting set and all local fields intact. -/
theorem sync_preserves_local_fields_witness :
    ∃ r' ∈ (writeToSupabase [mkRow (some 7) "No Contact" true false "call"]
        [mkPayload 7 50]).1,
      r'.invoice_id = some 7 ∧ r'.payment_status = "No Contact" ∧
      r'.is_ghosting = true ∧ r'.is_terminated = false ∧
      r'.comments = "call" :=
  sync_preserves_local_fields [mkRow (some 7) "No Contact" true false "call"]
    [mkPayload 7 50] (mkRow (some 7) "No Contact" true false "call") 7
    (by decide) rfl (by decide)

/-- Witness for C4 (amended): with one stored row holding id 3 and an empty
fresh batch, exactly id 3 is deleted. -/
theorem writeToSupabase_delete_spec_witness :
    (3 : Int) ∈ deletedIdsOfOps
      (writeToSupabase [mkRow (some 3) "" false false ""] []).2 :=
  ((writeToSupabase_delete_spec [mkRow (some 3) "" false false ""] []).1 3).mpr
    ⟨rfl, by decide, ⟨mkRow (some 3) "" false false "", by decide, rfl⟩, by decide⟩

/-- One unfolding step of the pagination loop. -/
theorem fetchLoop_succ (pages : Int → List AspireInvoice) (lastMaxId : Int)
    (fuel : Nat) :
    fetchLoop pages lastMaxId (fuel + 1) =
      (let invoices := pages (filterFor lastMaxId);
       if invoices.length = 0 then ([], 1)
       else if invoices.length < PAGE_SIZE then (invoices, 1)
       else
         let rest := fetchLoop pages (maxIdOf invoices) fuel
         (invoices ++ rest.1, rest.2 + 1)) := rfl

/-- If the very first page comes back empty, the whole fetch is empty. -/
theorem fetchAllInvoices_empty_first (pages : Int → List AspireInvoice)
    (h : pages 0 = []) : (fetchAllInvoices pages).1 = [] := by
  unfold fetchAllInvoices maxPages
  rw [show (100 : Nat) = 99 + 1 from rfl, fetchLoop_succ,
    show filterFor 0 = 0 from rfl, h]
  rfl

/-- C10: when the external fetch yields no invoices, the authenticated POST
handler returns success with count 0 and message "No invoices found",
leaves the store untouched and issues no write operation at all; in
particular this covers a failing very first page fetch, which
`fetchInvoicesBatch` turns into an empty page that ends pagination. -/
theorem POST_empty_fetch_no_writes
    (raw : Int → Except String (List AspireInvoice))
    (contactMap : Int → Option Contact) (pf : String → Option Int)
    (now tz : Int) (rows : List ArAgingRow) :
    ((fetchAllInvoices (fun c => fetchInvoicesBatch (raw c))).1 = [] →
      POST true raw contactMap pf now tz rows =
        (.success "No invoices found" 0, rows, [])) ∧
    (∀ e : String, raw 0 = Except.error e →
      (fetchAllInvoices (fun c => fetchInvoicesBatch (raw c))).1 = [] ∧
      POST true raw contactMap pf now tz rows =
        (.success "No invoices found" 0, rows, [])) := by
  have hmain : (fetchAllInvoices (fun c => fetchInvoicesBatch (raw c))).1 = [] →
      POST true raw contactMap pf now tz rows =
        (.success "No invoices found" 0, rows, []) := by
    intro h
    unfold POST
    rw [if_neg (by decide : ¬ (true = false)), h]
    rfl
  refine ⟨hmain, fun e he => ?_⟩
  have hempty : (fetchAllInvoices (fun c => fetchInvoicesBatch (raw c))).1 = [] := by
    apply fetchAllInvoices_empty_first
    show fetchInvoicesBatch (raw 0) = []
    rw [he]
    rfl
  exact ⟨hempty, hmain hempty⟩

/-- Witness for C10: a proxy that fails every request produces a success
response with count 0 and leaves the single stored row untouched. -/
theorem POST_empty_fetch_no_writes_witness :
    POST true (fun _ => Except.error "API failed") (fun _ => none)
      parseEpochOnly 0 0 [mkRow (some 3) "x" true false "c"] =
      (.success "No invoices found" 0, [mkRow (some 3) "x" true false "c"], []) :=
  ((POST_empty_fetch_no_writes (fun _ => Except.error "API failed")
      (fun _ => none) parseEpochOnly 0 0
      [mkRow (some 3) "x" true false "c"]).2 "API failed" rfl).2

/-- The region column of a built snapshot row is the region it was built
for. -/
theorem buildSnapshotRow_region (inv : List Invoice) (d u : String)
    (reg : Region) : (buildSnapshotRow inv d u reg).region = reg := rfl

/-- The date column of a built snapshot row is the date it was built
for. -/
theorem buildSnapshotRow_date (inv : List Invoice) (d u : String)
    (reg : Region) : (buildSnapshotRow inv d u reg).snapshot_date = d := rfl

/-- The snapshot upsert preserves key uniqueness. -/
theorem upsertSnapshotRow_unique (table : List SnapshotRow)
    (row : SnapshotRow) (h : snapshotKeysUnique table) :
    snapshotKeysUnique (upsertSnapshotRow table row) := by
  unfold upsertSnapshotRow
  split_ifs with hex
  · unfold snapshotKeysUnique at h ⊢
    rw [List.pairwise_map]
    have key : ∀ x : SnapshotRow,
        ((if x.snapshot_date = row.snapshot_date ∧ x.region = row.region
          then row else x).snapshot_date = x.snapshot_date ∧
         (if x.snapshot_date = row.snapshot_date ∧ x.region = row.region
          then row else x).region = x.region) := by
      intro x
      split_ifs with hx
      · exact ⟨hx.1.symm, hx.2.symm⟩
      · exact ⟨rfl, rfl⟩
    refine h.imp ?_
    intro a b hab hcon
    refine hab ⟨?_, ?_⟩
    · rw [← (key a).1, ← (key b).1]; exact hcon.1
    · rw [← (key a).2, ← (key b).2]; exact hcon.2
  · unfold snapshotKeysUnique at h ⊢
    rw [List.pairwise_append]
    refine ⟨h, by simp, ?_⟩
    intro a ha b hb
    simp only [List.mem_singleton] at hb
    subst hb
    exact fun hcon => hex ⟨a, ha, hcon⟩

/-- Replacing the matching row by `row` and filtering at `row`'s key leaves
exactly `[row]`, provided the table's keys are unique and a match
exists. -/
theorem filter_map_upsert (row : SnapshotRow) :
    ∀ l : List SnapshotRow, snapshotKeysUnique l →
      (∃ r ∈ l, r.snapshot_date = row.snapshot_date ∧ r.region = row.region) →
      (l.map (fun r =>
        if r.snapshot_date = row.snapshot_date ∧ r.region = row.region
        then row else r)).filter
        (fun r => decide (r.snapshot_date = row.snapshot_date ∧
          r.region = row.region)) = [row] := by
  intro l
  induction l with
  | nil =>
    rintro - ⟨r, hr, -⟩
    cases hr
  | cons t ts ih =>
    intro hu hex
    obtain ⟨hhead, htail⟩ := List.pairwise_cons.mp hu
    by_cases ht : t.snapshot_date = row.snapshot_date ∧ t.region = row.region
    · rw [List.map_cons, if_pos ht, List.filter_cons_of_pos (by simp)]
      have hts : ∀ b ∈ ts,
          ¬(b.snapshot_date = row.snapshot_date ∧ b.region = row.region) := by
        intro b hb hcon
        exact hhead b hb ⟨ht.1.trans hcon.1.symm, ht.2.trans hcon.2.symm⟩
      have hmap : ts.map (fun r =>
          if r.snapshot_date = row.snapshot_date ∧ r.region = row.region
          then row else r) = ts := by
        rw [List.map_congr_left (fun a ha => if_neg (hts a ha)), List.map_id']
      rw [hmap, List.filter_eq_nil_iff.mpr (fun a ha => by
        simp only [decide_eq_true_eq]
        exact hts a ha)]
    · rw [List.map_cons, if_neg ht,
        List.filter_cons_of_neg (by simp only [decide_eq_true_eq]; exact ht)]
      refine ih htail ?_
      obtain ⟨r, hr, hkey⟩ := hex
      rcases List.mem_cons.mp hr with rfl | hr'
      · exact absurd hkey ht
      · exact ⟨r, hr', hkey⟩

/-- Filtering the upserted table at the upserted row's key yields exactly
that row (key given explicitly). -/
theorem upsertSnapshotRow_filter_self (table : List SnapshotRow)
    (row : SnapshotRow) (d : String) (reg : Region)
    (h : snapshotKeysUnique table) (hd : row.snapshot_date = d)
    (hr : row.region = reg) :
    (upsertSnapshotRow table row).filter
      (fun r => decide (r.snapshot_date = d ∧ r.region = reg)) = [row] := by
  subst hd
  subst hr
  unfold upsertSnapshotRow
  split_ifs with hex
  · exact filter_map_upsert row table h hex
  · rw [List.filter_append,
      List.filter_eq_nil_iff.mpr (fun a ha => by
        simp only [decide_eq_true_eq]
        exact fun hcon => hex ⟨a, ha, hcon⟩),
      List.nil_append, List.filter_cons_of_pos (by simp), List.filter_nil]

/-- Replacing rows at `row`'s key does not change the table filtered at a
different key `(d, reg)`. -/
theorem filter_map_upsert_other (row : SnapshotRow) (d : String) (reg : Region)
    (hne : ¬(row.snapshot_date = d ∧ row.region = reg)) :
    ∀ l : List SnapshotRow,
      (l.map (fun r =>
        if r.snapshot_date = row.snapshot_date ∧ r.region = row.region
        then row else r)).filter
        (fun r => decide (r.snapshot_date = d ∧ r.region = reg)) =
      l.filter (fun r => decide (r.snapshot_date = d ∧ r.region = reg)) := by
  intro l
  induction l with
  | nil => rfl
  | cons t ts ih =>
    rw [List.map_cons]
    by_cases ht : t.snapshot_date = row.snapshot_date ∧ t.region = row.region
    · have hpt : ¬(t.snapshot_date = d ∧ t.region = reg) := fun hcon =>
        hne ⟨ht.1.symm.trans hcon.1, ht.2.symm.trans hcon.2⟩
      rw [if_pos ht,
        List.filter_cons_of_neg (by simp only [decide_eq_true_eq]; exact hne),
        List.filter_cons_of_neg (by simp only [decide_eq_true_eq]; exact hpt),
        ih]
    · rw [if_neg ht]
      by_cases hpd : t.snapshot_date = d ∧ t.region = reg
      · rw [List.filter_cons_of_pos (by simp only [decide_eq_true_eq]; exact hpd),
          List.filter_cons_of_pos (by simp only [decide_eq_true_eq]; exact hpd),
          ih]
      · rw [List.filter_cons_of_neg (by simp only [decide_eq_true_eq]; exact hpd),
          List.filter_cons_of_neg (by simp only [decide_eq_true_eq]; exact hpd),
          ih]

/-- Upserting a row whose key differs from `(d, reg)` does not change the
table filtered at `(d, reg)`. -/
theorem upsertSnapshotRow_filter_other (table : List SnapshotRow)
    (row : SnapshotRow) (d : String) (reg : Region)
    (hne : ¬(row.snapshot_date = d ∧ row.region = reg)) :
    (upsertSnapshotRow table row).filter
      (fun r => decide (r.snapshot_date = d ∧ r.region = reg)) =
      table.filter (fun r => decide (r.snapshot_date = d ∧ r.region = reg)) := by
  unfold upsertSnapshotRow
  split_ifs with hex
  · exact filter_map_upsert_other row d reg hne table
  · rw [List.filter_append,
      show List.filter (fun r => decide (r.snapshot_date = d ∧ r.region = reg))
          [row] = [] from
        List.filter_eq_nil_iff.mpr (fun a ha => by
          simp only [List.mem_singleton] at ha
          subst ha
          simp only [decide_eq_true_eq]
          exact hne),
      List.append_nil]

/-- One `createSnapshot` run is the three region upserts in order. -/
theorem createSnapshot_unfold (inv : List Invoice) (u date : String)
    (table : List SnapshotRow) :
    createSnapshot inv u date table =
      upsertSnapshotRow
        (upsertSnapshotRow
          (upsertSnapshotRow table (buildSnapshotRow inv date u .all))
          (buildSnapshotRow inv date u .phoenix))
        (buildSnapshotRow inv date u .lasVegas) := rfl

/-- `createSnapshot` preserves snapshot-key uniqueness. -/
theorem createSnapshot_unique (inv : List Invoice) (u date : String)
    (table : List SnapshotRow) (h : snapshotKeysUnique table) :
    snapshotKeysUnique (createSnapshot inv u date table) := by
  rw [createSnapshot_unfold]
  exact upsertSnapshotRow_unique _ _
    (upsertSnapshotRow_unique _ _ (upsertSnapshotRow_unique _ _ h))

/-- C8: snapshot persistence is an upsert keyed on (snapshot_date, region):
running snapshot creation twice for the same date (with possibly different
invoice sets and users) keeps the table's keys unique and leaves, for each
of the three regions, exactly one row for (date, region) — the one built by
the second run.  (Re-running never errors: the upsert is total.) -/
theorem createSnapshot_idempotent_key (inv1 inv2 : List Invoice)
    (user1 user2 date : String) (table : List SnapshotRow)
    (h : snapshotKeysUnique table) :
    snapshotKeysUnique
      (createSnapshot inv2 user2 date (createSnapshot inv1 user1 date table)) ∧
    ∀ region ∈ snapshotRegions,
      (createSnapshot inv2 user2 date
          (createSnapshot inv1 user1 date table)).filter
        (fun r => decide (r.snapshot_date = date ∧ r.region = region)) =
        [buildSnapshotRow inv2 date user2 region] := by
  have h1 : snapshotKeysUnique (createSnapshot inv1 user1 date table) :=
    createSnapshot_unique inv1 user1 date table h
  have h2 : snapshotKeysUnique (upsertSnapshotRow
      (createSnapshot inv1 user1 date table)
      (buildSnapshotRow inv2 date user2 .all)) :=
    upsertSnapshotRow_unique _ _ h1
  have h3 : snapshotKeysUnique (upsertSnapshotRow (upsertSnapshotRow
      (createSnapshot inv1 user1 date table)
      (buildSnapshotRow inv2 date user2 .all))
      (buildSnapshotRow inv2 date user2 .phoenix)) :=
    upsertSnapshotRow_unique _ _ h2
  constructor
  · exact createSnapshot_unique inv2 user2 date _ h1
  · intro region hreg
    simp only [snapshotRegions, List.mem_cons, List.not_mem_nil, or_false] at hreg
    rw [createSnapshot_unfold inv2 user2 date]
    rcases hreg with rfl | rfl | rfl
    · rw [upsertSnapshotRow_filter_other _ _ date .all (by
        rintro ⟨-, hcon⟩
        rw [buildSnapshotRow_region] at hcon
        cases hcon)]
      rw [upsertSnapshotRow_filter_other _ _ date .all (by
        rintro ⟨-, hcon⟩
        rw [buildSnapshotRow_region] at hcon
        cases hcon)]
      exact upsertSnapshotRow_filter_self _ _ date .all h1 rfl rfl
    · rw [upsertSnapshotRow_filter_other _ _ date .phoenix (by
        rintro ⟨-, hcon⟩
        rw [buildSnapshotRow_region] at hcon
        cases hcon)]
      exact upsertSnapshotRow_filter_self _ _ date .phoenix h2 rfl rfl
    · exact upsertSnapshotRow_filter_self _ _ date .lasVegas h3 rfl rfl

/-- Witness for C8: creating snapshots twice for 2024-01-31 from an empty
table leaves exactly one row per (date, region), holding the second run's
values. -/
theorem createSnapshot_idempotent_key_witness :
    snapshotKeysUnique (createSnapshot [] "u2" "2024-01-31"
      (createSnapshot [] "u1" "2024-01-31" [])) ∧
    ∀ region ∈ snapshotRegions,
      (createSnapshot [] "u2" "2024-01-31"
          (createSnapshot [] "u1" "2024-01-31" [])).filter
        (fun r => decide (r.snapshot_date = "2024-01-31" ∧ r.region = region)) =
        [buildSnapshotRow [] "2024-01-31" "u2" region] :=
  createSnapshot_idempotent_key [] [] "u1" "u2" "2024-01-31" []
    (by constructor)

end ARM

